import Mathlib

/-!
Shallow embedding of the contract-capacity engine in core_calc.py.
Currency and kW quantities are modelled as exact rationals; month
arithmetic is modelled on the integers with Euclidean division, which
agrees with Python floor division and modulo for the positive
divisor 12.  Python exceptions are modelled with Except / Option.
-/

/-- Low-voltage summer basic rate (currency per kW per month). -/
def LV_SUMMER_BASIC_RATE : ℚ := 236.2

/-- Low-voltage non-summer basic rate. -/
def LV_NON_SUMMER_BASIC_RATE : ℚ := 173.2

/-- High-voltage summer basic rate. -/
def HV_SUMMER_BASIC_RATE : ℚ := 223.6

/-- High-voltage non-summer basic rate. -/
def HV_NON_SUMMER_BASIC_RATE : ℚ := 166.9

/-- Over-capacity penalty for one month (calc_over_penalty):
the first 10 percent of contract over-use is billed at twice the basic
rate, the rest at three times. -/
def calc_over_penalty (max_demand_kw contract_kw basic_rate : ℚ) : ℚ :=
  if max_demand_kw ≤ contract_kw then 0
  else
    let threshold_10 := contract_kw * 1.10
    let over_2 :=
      if max_demand_kw ≤ threshold_10 then max_demand_kw - contract_kw
      else contract_kw * 0.10
    let over_3 :=
      if max_demand_kw ≤ threshold_10 then (0 : ℚ)
      else max_demand_kw - threshold_10
    over_2 * basic_rate * 2 + over_3 * basic_rate * 3

/-- Summer months are June through September (is_summer_month). -/
def is_summer_month (month : ℤ) : Bool :=
  decide (6 ≤ month ∧ month ≤ 9)

/-- Basic rate for a month and supply type (get_basic_rate_for_month);
none models the ValueError raised on an unknown supply type. -/
def get_basic_rate_for_month (month : ℤ) (supply_type : String) : Option ℚ :=
  if supply_type = "HV" then
    some (if is_summer_month month then HV_SUMMER_BASIC_RATE else HV_NON_SUMMER_BASIC_RATE)
  else if supply_type = "LV" then
    some (if is_summer_month month then LV_SUMMER_BASIC_RATE else LV_NON_SUMMER_BASIC_RATE)
  else
    none

/-- Month arithmetic (shift_month): Euclidean division and modulo on ℤ
coincide with Python floor division and modulo for the divisor 12. -/
def shift_month (year month delta : ℤ) : ℤ × ℤ :=
  let total := year * 12 + (month - 1) + delta
  (total / 12, total % 12 + 1)

/-- Python round built-in on an exact rational: round to nearest,
ties to the even integer. -/
def pyRound (x : ℚ) : ℤ :=
  if x - (⌊x⌋ : ℚ) < 1/2 then ⌊x⌋
  else if (1 : ℚ)/2 < x - (⌊x⌋ : ℚ) then ⌊x⌋ + 1
  else if ⌊x⌋ % 2 = 0 then ⌊x⌋ else ⌊x⌋ + 1

/-- Rounded mean of the readings (int(round(sum(xs)/len(xs)))). -/
def avg_calc (l : List ℚ) : ℤ :=
  pyRound (l.sum / (l.length : ℚ))

/-- Integers 0, 1, ..., n-1, the integer image of range(n). -/
def int_range (n : ℕ) : List ℤ :=
  (List.range n).map Int.ofNat

/-- Candidate contract capacities around the rounded average: 200 steps
down (kept only when positive), the centre, 200 steps up, then
deduplicated and sorted ascending, as sorted(set(...)) does. -/
def candidate_contracts (avg : ℤ) : List ℤ :=
  let down := ((int_range 200).map (fun j => avg - (200 - j))).filter
    (fun c => decide (0 < c))
  let up := (int_range 200).map (fun j => avg + (j + 1))
  ((down ++ [avg]) ++ up).dedup.mergeSort (fun a b => decide (a ≤ b))

/-- Result record for one candidate contract capacity. -/
structure ScenarioResult where
  contract_kw : ℚ
  total_basic : ℚ
  total_penalty : ℚ
  annual_total : ℚ
  avg_monthly : ℚ
deriving DecidableEq

/-- Rate actually used inside the simulation loops; total on the two
recognized supply types, which are the only ones that reach it. -/
def rate0 (month : ℤ) (supply_type : String) : ℚ :=
  (get_basic_rate_for_month month supply_type).getD 0

/-- The twelve billing months: the start month and the eleven months
before it. -/
def months_of (start_year start_month : ℤ) : List (ℤ × ℤ) :=
  (List.range 12).map (fun (i : ℕ) => shift_month start_year start_month (-(i : ℤ)))

/-- Annual cost of one candidate contract capacity over the twelve
months (the per-candidate loop body of run_simulation). -/
def scenario_cost (supply_type : String) (months : List (ℤ × ℤ))
    (max_demands : List ℚ) (C : ℚ) : ScenarioResult :=
  let pairs := months.zip max_demands
  let monthly_basic := pairs.map (fun p => C * rate0 p.1.2 supply_type)
  let monthly_penalty := pairs.map
    (fun p => calc_over_penalty p.2 C (rate0 p.1.2 supply_type))
  let total_basic := monthly_basic.sum
  let total_penalty := monthly_penalty.sum
  { contract_kw := C
    total_basic := total_basic
    total_penalty := total_penalty
    annual_total := total_basic + total_penalty
    avg_monthly := (total_basic + total_penalty) / 12 }

/-- All candidate scenarios, in candidate order. -/
def scenario_results (supply_type : String) (months : List (ℤ × ℤ))
    (max_demands : List ℚ) (cands : List ℤ) : List ScenarioResult :=
  cands.map (fun (c : ℤ) => scenario_cost supply_type months max_demands (c : ℚ))

/-- Python min(list, key=annual_total): left fold that replaces the
current best only on a strictly smaller key, so the first minimum wins. -/
def py_min_annual : List ScenarioResult → Option ScenarioResult
  | [] => none
  | x :: xs =>
    some (xs.foldl (fun b a => if a.annual_total < b.annual_total then a else b) x)

/-- Best scenario of a list (min over annual_total); the default value
is never used because the candidate list is never empty. -/
def best_of (results : List ScenarioResult) : ScenarioResult :=
  (py_min_annual results).getD ⟨0, 0, 0, 0, 0⟩

/-- Display window construction of run_simulation: sort the capacities,
locate the best capacity, slice six ranks on each side, keep the
scenarios whose capacity lies in the slice, and sort them again. -/
def scan_table_of (results : List ScenarioResult) (best_capacity : ℚ) :
    List ScenarioResult :=
  let sorted_contracts :=
    (results.map (fun s => s.contract_kw)).mergeSort (fun a b => decide (a ≤ b))
  let best_index := sorted_contracts.indexOf best_capacity
  let start_index := best_index - 6
  let end_index := min (sorted_contracts.length - 1) (best_index + 6)
  let display_contracts :=
    (sorted_contracts.drop start_index).take (end_index + 1 - start_index)
  let table := results.filter (fun s => decide (s.contract_kw ∈ display_contracts))
  table.mergeSort (fun a b => decide (a.contract_kw ≤ b.contract_kw))

/-- One row of the current-contract monthly detail. -/
structure MonthlyLine where
  year : ℤ
  month : ℤ
  summer : Bool
  rate : ℚ
  max_demand : ℚ
  basic : ℚ
  penalty : ℚ
deriving DecidableEq

/-- Current-contract monthly detail rows. -/
def current_detail_of (supply_type : String) (contract_kw_current : ℚ)
    (months : List (ℤ × ℤ)) (max_demands : List ℚ) : List MonthlyLine :=
  (months.zip max_demands).map (fun p =>
    { year := p.1.1
      month := p.1.2
      summer := is_summer_month p.1.2
      rate := rate0 p.1.2 supply_type
      max_demand := p.2
      basic := contract_kw_current * rate0 p.1.2 supply_type
      penalty := calc_over_penalty p.2 contract_kw_current (rate0 p.1.2 supply_type) })

/-- Current-contract annual summary. -/
structure CurrentSummary where
  customer_name : String
  supply_type : String
  contract_kw_current : ℚ
  start_year : ℤ
  start_month : ℤ
  total_basic : ℚ
  total_penalty : ℚ
  annual_total : ℚ
  avg_monthly : ℚ
deriving DecidableEq

/-- Full output of one run_simulation call. -/
structure SimOutput where
  current_detail : List MonthlyLine
  current_summary : CurrentSummary
  scan_table : List ScenarioResult
  best_row : ScenarioResult
  avg_max_demand : ℤ
deriving DecidableEq

/-- Error kinds run_simulation can raise. -/
inductive SimError where
  | invalidReadingCount
  | invalidSupplyClass
deriving DecidableEq

/-- Successful-run output of run_simulation, assembled from the loop
helpers above. -/
def sim_output (customer_name supply_type : String)
    (contract_kw_current : ℚ) (start_year start_month : ℤ)
    (max_demands : List ℚ) : SimOutput :=
  let months := months_of start_year start_month
  let cur := scenario_cost supply_type months max_demands contract_kw_current
  let detail := current_detail_of supply_type contract_kw_current months max_demands
  let avg := avg_calc max_demands
  let results := scenario_results supply_type months max_demands
    (candidate_contracts avg)
  let best := best_of results
  let table := scan_table_of results best.contract_kw
  { current_detail := detail
    current_summary :=
      { customer_name := customer_name
        supply_type := supply_type
        contract_kw_current := contract_kw_current
        start_year := start_year
        start_month := start_month
        total_basic := cur.total_basic
        total_penalty := cur.total_penalty
        annual_total := cur.annual_total
        avg_monthly := cur.avg_monthly }
    scan_table := table
    best_row := best
    avg_max_demand := avg }

/-- Engine entry point (run_simulation).  The reading-count check comes
first, as in the source; an unknown supply type is rejected next,
modelling the ValueError that the first rate lookup would raise. -/
def run_simulation (customer_name supply_type : String)
    (contract_kw_current : ℚ) (start_year start_month : ℤ)
    (max_demands : List ℚ) : Except SimError SimOutput :=
  if max_demands.length ≠ 12 then
    .error .invalidReadingCount
  else if supply_type ≠ "HV" ∧ supply_type ≠ "LV" then
    .error .invalidSupplyClass
  else
    .ok (sim_output customer_name supply_type contract_kw_current
      start_year start_month max_demands)

/-! ## Penalty model: C1 and C10 -/

/-- Closed form of the penalty, with the intermediate pair projected
away. -/
theorem calc_over_penalty_eq (D C BR : ℚ) :
    calc_over_penalty D C BR =
      if D ≤ C then 0
      else if D ≤ C * 1.10 then (D - C) * BR * 2
      else C * 0.10 * BR * 2 + (D - C * 1.10) * BR * 3 := by
  unfold calc_over_penalty
  rcases le_or_lt D C with h | h
  · rw [if_pos h, if_pos h]
  · rw [if_neg (not_le.mpr h), if_neg (not_le.mpr h)]
    rcases le_or_lt D (C * 1.10) with h2 | h2
    · simp only [if_pos h2]
      try ring
    · simp only [if_neg (not_le.mpr h2)]
      try ring

/-- C1: calc_over_penalty is zero up to the contract, twice the basic
rate on the overage within 110 percent of contract, and twice on the
first 10-percent band plus three times on the remainder beyond it; at
contract 100 and rate 200 the penalty at demands 100, 105, 110, 115 is
0, 2000, 4000, 7000. -/
theorem calc_over_penalty_piecewise (D C BR : ℚ)
    (hD : 0 ≤ D) (hC : 0 < C) (hBR : 0 ≤ BR) :
    (D ≤ C → calc_over_penalty D C BR = 0) ∧
    (C < D → D ≤ C * 1.10 → calc_over_penalty D C BR = (D - C) * BR * 2) ∧
    (C * 1.10 < D →
      calc_over_penalty D C BR = C * 0.10 * BR * 2 + (D - C * 1.10) * BR * 3) ∧
    calc_over_penalty 100 100 200 = 0 ∧
    calc_over_penalty 105 100 200 = 2000 ∧
    calc_over_penalty 110 100 200 = 4000 ∧
    calc_over_penalty 115 100 200 = 7000 := by
  refine ⟨?_, ?_, ?_, ?_, ?_, ?_, ?_⟩
  · intro h
    rw [calc_over_penalty_eq, if_pos h]
  · intro h1 h2
    rw [calc_over_penalty_eq, if_neg (by linarith), if_pos h2]
  · intro h
    rw [calc_over_penalty_eq, if_neg (by nlinarith), if_neg (by linarith)]
  · norm_num [calc_over_penalty_eq]
  · norm_num [calc_over_penalty_eq]
  · norm_num [calc_over_penalty_eq]
  · norm_num [calc_over_penalty_eq]

/-- Witness for C1 at demand 105, contract 100, rate 200. -/
theorem calc_over_penalty_piecewise_witness :
    (0 : ℚ) ≤ 105 ∧ (0 : ℚ) < 100 ∧ (0 : ℚ) ≤ 200 ∧
    (((105 : ℚ) ≤ 100 → calc_over_penalty 105 100 200 = 0) ∧
      ((100 : ℚ) < 105 → (105 : ℚ) ≤ 100 * 1.10 →
        calc_over_penalty 105 100 200 = (105 - 100) * 200 * 2) ∧
      ((100 : ℚ) * 1.10 < 105 →
        calc_over_penalty 105 100 200 =
          100 * 0.10 * 200 * 2 + (105 - 100 * 1.10) * 200 * 3) ∧
      calc_over_penalty 100 100 200 = 0 ∧
      calc_over_penalty 105 100 200 = 2000 ∧
      calc_over_penalty 110 100 200 = 4000 ∧
      calc_over_penalty 115 100 200 = 7000) :=
  ⟨by norm_num, by norm_num, by norm_num,
    calc_over_penalty_piecewise 105 100 200 (by norm_num) (by norm_num) (by norm_num)⟩

/-- C10: for a positive contract and non-negative basic rate the
penalty is monotone non-decreasing in the demand, non-negative, and the
branch formulas agree at both tier boundaries. -/
theorem calc_over_penalty_monotone (C BR d1 d2 : ℚ)
    (hC : 0 < C) (hBR : 0 ≤ BR) (h0 : 0 ≤ d1) (h12 : d1 ≤ d2) :
    calc_over_penalty d1 C BR ≤ calc_over_penalty d2 C BR ∧
    0 ≤ calc_over_penalty d1 C BR ∧
    calc_over_penalty C C BR = (C - C) * BR * 2 ∧
    calc_over_penalty (C * 1.10) C BR =
      C * 0.10 * BR * 2 + (C * 1.10 - C * 1.10) * BR * 3 := by
  refine ⟨?_, ?_, ?_, ?_⟩
  · rcases le_or_lt d1 C with h1 | h1
    · rw [calc_over_penalty_eq d1, if_pos h1]
      rcases le_or_lt d2 C with h3 | h3
      · rw [calc_over_penalty_eq, if_pos h3]
      · rcases le_or_lt d2 (C * 1.10) with h4 | h4
        · rw [calc_over_penalty_eq, if_neg (not_le.mpr h3), if_pos h4]
          nlinarith [mul_nonneg hBR (by linarith : (0 : ℚ) ≤ d2 - C)]
        · rw [calc_over_penalty_eq, if_neg (not_le.mpr h3), if_neg (not_le.mpr h4)]
          nlinarith [mul_nonneg hBR hC.le,
            mul_nonneg hBR (by linarith : (0 : ℚ) ≤ d2 - C * 1.10)]
    · rcases le_or_lt d1 (C * 1.10) with h2 | h2
      · rw [calc_over_penalty_eq d1, if_neg (not_le.mpr h1), if_pos h2]
        rcases le_or_lt d2 (C * 1.10) with h4 | h4
        · rw [calc_over_penalty_eq, if_neg (by push_neg; linarith), if_pos h4]
          nlinarith [mul_nonneg hBR (by linarith : (0 : ℚ) ≤ d2 - d1)]
        · rw [calc_over_penalty_eq, if_neg (by push_neg; linarith),
            if_neg (not_le.mpr h4)]
          nlinarith [mul_nonneg hBR (by linarith : (0 : ℚ) ≤ C * 1.10 - d1),
            mul_nonneg hBR (by linarith : (0 : ℚ) ≤ d2 - C * 1.10)]
      · have h4 : ¬ d2 ≤ C * 1.10 := by push_neg; linarith
        rw [calc_over_penalty_eq d1, if_neg (not_le.mpr h1), if_neg (not_le.mpr h2),
          calc_over_penalty_eq, if_neg (by push_neg; linarith), if_neg h4]
        nlinarith [mul_nonneg hBR (by linarith : (0 : ℚ) ≤ d2 - d1)]
  · rw [calc_over_penalty_eq]
    rcases le_or_lt d1 C with h1 | h1
    · rw [if_pos h1]
    · rcases le_or_lt d1 (C * 1.10) with h2 | h2
      · rw [if_neg (not_le.mpr h1), if_pos h2]
        nlinarith [mul_nonneg hBR (by linarith : (0 : ℚ) ≤ d1 - C)]
      · rw [if_neg (not_le.mpr h1), if_neg (not_le.mpr h2)]
        nlinarith [mul_nonneg hBR hC.le,
          mul_nonneg hBR (by linarith : (0 : ℚ) ≤ d1 - C * 1.10)]
  · rw [calc_over_penalty_eq, if_pos le_rfl]
    ring
  · rw [calc_over_penalty_eq, if_neg (by push_neg; linarith), if_pos le_rfl]
    ring

/-- Witness for C10 at contract 100, rate 200, demands 50 and 120. -/
theorem calc_over_penalty_monotone_witness :
    (0 : ℚ) < 100 ∧ (0 : ℚ) ≤ 200 ∧ (0 : ℚ) ≤ 50 ∧ (50 : ℚ) ≤ 120 ∧
    (calc_over_penalty 50 100 200 ≤ calc_over_penalty 120 100 200 ∧
      0 ≤ calc_over_penalty 50 100 200 ∧
      calc_over_penalty 100 100 200 = ((100 : ℚ) - 100) * 200 * 2 ∧
      calc_over_penalty (100 * 1.10) 100 200 =
        100 * 0.10 * 200 * 2 + ((100 : ℚ) * 1.10 - 100 * 1.10) * 200 * 3) :=
  ⟨by norm_num, by norm_num, by norm_num, by norm_num,
    calc_over_penalty_monotone 100 200 50 120
      (by norm_num) (by norm_num) (by norm_num) (by norm_num)⟩

/-! ## Month sequencer: C6 and C7 -/

/-- C6: the month component of shift_month always lands in 1..12, and
shifting January 2024 back 13 months gives December 2022. -/
theorem shift_month_month_in_range (y m d : ℤ) (h1 : 1 ≤ m) (h2 : m ≤ 12) :
    1 ≤ (shift_month y m d).2 ∧ (shift_month y m d).2 ≤ 12 ∧
    shift_month 2024 1 (-13) = (2022, 12) := by
  refine ⟨?_, ?_, ?_⟩ <;> simp only [shift_month, Prod.mk.injEq] <;> omega

/-- Witness for C6 at year 2024, month 1, delta -13. -/
theorem shift_month_month_in_range_witness :
    (1 : ℤ) ≤ 1 ∧ (1 : ℤ) ≤ 12 ∧
    (1 ≤ (shift_month 2024 1 (-13)).2 ∧ (shift_month 2024 1 (-13)).2 ≤ 12 ∧
      shift_month 2024 1 (-13) = (2022, 12)) :=
  ⟨by norm_num, by norm_num,
    shift_month_month_in_range 2024 1 (-13) (by norm_num) (by norm_num)⟩

/-- C7: shifting by delta and then by minus delta returns the original
year and month. -/
theorem shift_month_round_trip (y m d : ℤ) (h1 : 1 ≤ m) (h2 : m ≤ 12) :
    shift_month (shift_month y m d).1 (shift_month y m d).2 (-d) = (y, m) := by
  simp only [shift_month, Prod.mk.injEq]
  omega

/-- Witness for C7 at year 2024, month 5, delta -27. -/
theorem shift_month_round_trip_witness :
    (1 : ℤ) ≤ 5 ∧ (5 : ℤ) ≤ 12 ∧
    shift_month (shift_month 2024 5 (-27)).1 (shift_month 2024 5 (-27)).2 27 =
      (2024, 5) := by
  refine ⟨by norm_num, by norm_num, ?_⟩
  have h := shift_month_round_trip 2024 5 (-27) (by norm_num) (by norm_num)
  simpa using h

/-! ## Rate table: C8 -/

/-- C8: the rate lookup fails exactly on unrecognized supply classes,
and for HV and LV it returns the summer rate exactly on months 6..9;
the season test gives false, true, true, false at months 5, 6, 9, 10. -/
theorem get_basic_rate_spec (m : ℤ) (st : String) :
    (get_basic_rate_for_month m st = none ↔ st ≠ "HV" ∧ st ≠ "LV") ∧
    get_basic_rate_for_month m "HV" =
      some (if 6 ≤ m ∧ m ≤ 9 then HV_SUMMER_BASIC_RATE else HV_NON_SUMMER_BASIC_RATE) ∧
    get_basic_rate_for_month m "LV" =
      some (if 6 ≤ m ∧ m ≤ 9 then LV_SUMMER_BASIC_RATE else LV_NON_SUMMER_BASIC_RATE) ∧
    is_summer_month 5 = false ∧ is_summer_month 6 = true ∧
    is_summer_month 9 = true ∧ is_summer_month 10 = false := by
  refine ⟨?_, ?_, ?_, by decide, by decide, by decide, by decide⟩
  · unfold get_basic_rate_for_month
    split_ifs with hH hL <;> simp_all
  · unfold get_basic_rate_for_month is_summer_month
    split_ifs <;> simp_all
  · unfold get_basic_rate_for_month is_summer_month
    split_ifs <;> simp_all

/-! ## Reading-count validation: C9 -/

/-- C9: run_simulation reports invalidReadingCount exactly when the
reading list does not have 12 entries; in the Except model an error
result carries no output at all. -/
theorem run_simulation_reading_count (cn st : String) (ckw : ℚ) (y m : ℤ)
    (dems : List ℚ) :
    run_simulation cn st ckw y m dems = .error .invalidReadingCount ↔
      dems.length ≠ 12 := by
  unfold run_simulation
  split_ifs with h1 h2 <;> simp [h1]

/-! ## Success path and scanner helpers -/

/-- With 12 readings and a recognized supply type, run_simulation
succeeds and returns the assembled output. -/
theorem run_simulation_ok (cn st : String) (ckw : ℚ) (y m : ℤ)
    (dems : List ℚ) (h12 : dems.length = 12) (hst : st = "HV" ∨ st = "LV") :
    run_simulation cn st ckw y m dems = .ok (sim_output cn st ckw y m dems) := by
  unfold run_simulation
  rw [if_neg (by simp [h12]), if_neg (by rcases hst with h | h <;> simp [h])]

/-- Rounding a value strictly within a half of an integer gives that
integer. -/
theorem pyRound_eq_of_near (k : ℤ) (q : ℚ)
    (h1 : (k : ℚ) - 1/2 < q) (h2 : q < (k : ℚ) + 1/2) : pyRound q = k := by
  unfold pyRound
  rcases le_or_lt (k : ℚ) q with hk | hk
  · have hf : ⌊q⌋ = k := Int.floor_eq_iff.mpr ⟨hk, by push_cast; linarith⟩
    rw [hf, if_pos (by push_cast; linarith)]
  · have hf : ⌊q⌋ = k - 1 := by
      apply Int.floor_eq_iff.mpr
      constructor <;> push_cast <;> linarith
    rw [hf, if_neg (by push_cast; linarith), if_pos (by push_cast; linarith)]
    omega

/-- Rounding an exact half goes to the even neighbour. -/
theorem pyRound_half (k : ℤ) :
    pyRound ((k : ℚ) + 1/2) = if k % 2 = 0 then k else k + 1 := by
  unfold pyRound
  have hf : ⌊(k : ℚ) + 1/2⌋ = k := by
    apply Int.floor_eq_iff.mpr
    constructor <;> push_cast <;> linarith
  rw [hf, if_neg (by push_cast; linarith), if_neg (by push_cast; linarith)]

/-- Rounding a non-negative value is non-negative. -/
theorem pyRound_nonneg (q : ℚ) (h : 0 ≤ q) : 0 ≤ pyRound q := by
  unfold pyRound
  have hq := Int.floor_nonneg.mpr h
  split_ifs <;> omega

/-! ## Average demand: C2 -/

/-- C2 (amended): on a valid call the scanner's averageDemand is the
mean of the readings rounded to the nearest integer with exact halves
rounded to the even integer (Python banker's rounding), not away from
zero. -/
theorem run_simulation_avg_demand (cn st : String) (ckw : ℚ) (y m : ℤ)
    (dems : List ℚ) (h12 : dems.length = 12) (hst : st = "HV" ∨ st = "LV") :
    run_simulation cn st ckw y m dems = .ok (sim_output cn st ckw y m dems) ∧
    (sim_output cn st ckw y m dems).avg_max_demand = pyRound (dems.sum / 12) ∧
    (∀ (k : ℤ) (q : ℚ), (k : ℚ) - 1/2 < q → q < (k : ℚ) + 1/2 → pyRound q = k) ∧
    (∀ k : ℤ, pyRound ((k : ℚ) + 1/2) = if k % 2 = 0 then k else k + 1) := by
  refine ⟨run_simulation_ok cn st ckw y m dems h12 hst, ?_,
    fun k q hq1 hq2 => pyRound_eq_of_near k q hq1 hq2, fun k => pyRound_half k⟩
  show avg_calc dems = pyRound (dems.sum / 12)
  unfold avg_calc
  rw [h12]
  norm_num

/-- Witness for C2 on an all-zero reading list. -/
theorem run_simulation_avg_demand_witness :
    ([0, 0, 0, 0, 0, 0, 0, 0, 0, 0, 0, 0] : List ℚ).length = 12 ∧
    ("HV" = "HV" ∨ "HV" = "LV") ∧
    (run_simulation "A" "HV" 100 2024 1 [0, 0, 0, 0, 0, 0, 0, 0, 0, 0, 0, 0] =
        .ok (sim_output "A" "HV" 100 2024 1 [0, 0, 0, 0, 0, 0, 0, 0, 0, 0, 0, 0]) ∧
      (sim_output "A" "HV" 100 2024 1
          [0, 0, 0, 0, 0, 0, 0, 0, 0, 0, 0, 0]).avg_max_demand =
        pyRound (([0, 0, 0, 0, 0, 0, 0, 0, 0, 0, 0, 0] : List ℚ).sum / 12) ∧
      (∀ (k : ℤ) (q : ℚ), (k : ℚ) - 1/2 < q → q < (k : ℚ) + 1/2 → pyRound q = k) ∧
      (∀ k : ℤ, pyRound ((k : ℚ) + 1/2) = if k % 2 = 0 then k else k + 1)) :=
  ⟨rfl, Or.inl rfl,
    run_simulation_avg_demand "A" "HV" 100 2024 1 _ rfl (Or.inl rfl)⟩

/-- C2 counterexample: a mean of exactly 2.5 is returned as 2 (ties go
to the even integer), not 3 as round-half-away-from-zero would give. -/
theorem run_simulation_avg_half_to_even :
    ([30, 0, 0, 0, 0, 0, 0, 0, 0, 0, 0, 0] : List ℚ).sum / 12 = (2 : ℚ) + 1/2 ∧
    (sim_output "A" "HV" 100 2024 1
        [30, 0, 0, 0, 0, 0, 0, 0, 0, 0, 0, 0]).avg_max_demand = 2 ∧
    (sim_output "A" "HV" 100 2024 1
        [30, 0, 0, 0, 0, 0, 0, 0, 0, 0, 0, 0]).avg_max_demand ≠ 2 + 1 ∧
    run_simulation "A" "HV" 100 2024 1 [30, 0, 0, 0, 0, 0, 0, 0, 0, 0, 0, 0] =
      .ok (sim_output "A" "HV" 100 2024 1 [30, 0, 0, 0, 0, 0, 0, 0, 0, 0, 0, 0]) := by
  have havg : (sim_output "A" "HV" 100 2024 1
      [30, 0, 0, 0, 0, 0, 0, 0, 0, 0, 0, 0]).avg_max_demand = 2 := by
    show avg_calc _ = 2
    norm_num [avg_calc, pyRound, List.sum_cons, List.sum_nil]
  refine ⟨by norm_num [List.sum_cons, List.sum_nil], havg, by rw [havg]; decide,
    run_simulation_ok "A" "HV" 100 2024 1 _ rfl (Or.inl rfl)⟩

/-! ## Candidate set: C3 -/

/-- Membership in the integer range helper. -/
theorem mem_int_range (n : ℕ) (a : ℤ) :
    a ∈ int_range n ↔ 0 ≤ a ∧ a < (n : ℤ) := by
  unfold int_range
  simp only [List.mem_map, List.mem_range, Int.ofNat_eq_natCast]
  constructor
  · rintro ⟨j, hj, rfl⟩
    omega
  · rintro ⟨h0, hn⟩
    exact ⟨a.toNat, by omega, by omega⟩

/-- Membership in the candidate list: the down half is filtered to
positive values, the centre is always present, the up half is
unconditional. -/
theorem candidate_mem (avg c : ℤ) :
    c ∈ candidate_contracts avg ↔
      ((avg - 200 ≤ c ∧ c ≤ avg - 1 ∧ 0 < c) ∨ c = avg ∨
        (avg + 1 ≤ c ∧ c ≤ avg + 200)) := by
  unfold candidate_contracts
  simp only [List.mem_mergeSort, List.mem_dedup, List.mem_append,
    List.mem_filter, List.mem_map, mem_int_range, List.mem_singleton,
    decide_eq_true_eq]
  constructor
  · rintro ((⟨⟨j, hj, rfl⟩, hpos⟩ | rfl) | ⟨j, hj, rfl⟩)
    · exact Or.inl (by omega)
    · exact Or.inr (Or.inl rfl)
    · exact Or.inr (Or.inr (by omega))
  · rintro (⟨h1, h2, h3⟩ | rfl | ⟨h1, h2⟩)
    · exact Or.inl (Or.inl ⟨⟨c - avg + 200, by omega, by omega⟩, h3⟩)
    · exact Or.inl (Or.inr rfl)
    · exact Or.inr ⟨c - avg - 1, by omega, by omega⟩

/-- The candidate list is strictly increasing. -/
theorem candidate_pairwise (avg : ℤ) :
    (candidate_contracts avg).Pairwise (fun a b => a < b) := by
  have hnd : (candidate_contracts avg).Nodup := by
    unfold candidate_contracts
    exact ((List.mergeSort_perm _ _).nodup_iff).mpr (List.nodup_dedup _)
  have hs : (candidate_contracts avg).Pairwise (fun a b => a ≤ b) := by
    unfold candidate_contracts
    have hms := @List.sorted_mergeSort ℤ (fun a b : ℤ => decide (a ≤ b))
      (fun a b c hab hbc => by
        simp only [decide_eq_true_eq] at hab hbc ⊢
        omega)
      (fun a b => by
        simp only [Bool.or_eq_true, decide_eq_true_eq]
        omega)
      (((((int_range 200).map (fun j => avg - (200 - j))).filter
          (fun c => decide (0 < c)) ++ [avg]) ++
        (int_range 200).map (fun j => avg + (j + 1))).dedup)
    exact hms.imp (fun h => by simpa using h)
  exact (hs.and hnd).imp (fun h => lt_of_le_of_ne h.1 h.2)

/-- C3 (amended): for twelve non-negative readings the candidate set is
strictly ascending and consists of the integers in the window
averageDemand plus or minus 200 that are positive, together with the
centre candidate averageDemand itself, which is kept even when it is
zero; so the claimed filter of all non-positive candidates fails only
at the centre when averageDemand is zero. -/
theorem candidate_window_characterization (dems : List ℚ)
    (h12 : dems.length = 12) (hnn : ∀ r ∈ dems, 0 ≤ r) :
    0 ≤ avg_calc dems ∧
    (candidate_contracts (avg_calc dems)).Pairwise (fun a b => a < b) ∧
    (∀ c : ℤ, c ∈ candidate_contracts (avg_calc dems) ↔
      (avg_calc dems - 200 ≤ c ∧ c ≤ avg_calc dems + 200 ∧
        (0 < c ∨ c = avg_calc dems))) := by
  have havg : 0 ≤ avg_calc dems :=
    pyRound_nonneg _ (div_nonneg (List.sum_nonneg hnn) (by positivity))
  refine ⟨havg, candidate_pairwise _, fun c => ?_⟩
  rw [candidate_mem]
  omega

/-- Witness for C3 on an all-zero reading list. -/
theorem candidate_window_characterization_witness :
    ([0, 0, 0, 0, 0, 0, 0, 0, 0, 0, 0, 0] : List ℚ).length = 12 ∧
    (∀ r ∈ ([0, 0, 0, 0, 0, 0, 0, 0, 0, 0, 0, 0] : List ℚ), 0 ≤ r) ∧
    (0 ≤ avg_calc [0, 0, 0, 0, 0, 0, 0, 0, 0, 0, 0, 0] ∧
      (candidate_contracts
        (avg_calc [0, 0, 0, 0, 0, 0, 0, 0, 0, 0, 0, 0])).Pairwise
          (fun a b => a < b) ∧
      (∀ c : ℤ, c ∈ candidate_contracts
          (avg_calc [0, 0, 0, 0, 0, 0, 0, 0, 0, 0, 0, 0]) ↔
        (avg_calc [0, 0, 0, 0, 0, 0, 0, 0, 0, 0, 0, 0] - 200 ≤ c ∧
          c ≤ avg_calc [0, 0, 0, 0, 0, 0, 0, 0, 0, 0, 0, 0] + 200 ∧
          (0 < c ∨ c = avg_calc [0, 0, 0, 0, 0, 0, 0, 0, 0, 0, 0, 0])))) :=
  ⟨rfl, by intro r hr; fin_cases hr <;> norm_num,
    candidate_window_characterization _ rfl
      (by intro r hr; fin_cases hr <;> norm_num)⟩

/-- C3 counterexample: with all readings zero the rounded average is 0,
the centre candidate 0 is in the candidate set, and its scenario is
evaluated by the scanner, contradicting the claim that no candidate
less than or equal to 0 is ever evaluated. -/
theorem candidate_zero_evaluated :
    avg_calc [0, 0, 0, 0, 0, 0, 0, 0, 0, 0, 0, 0] = 0 ∧
    (0 : ℤ) ∈ candidate_contracts
      (avg_calc [0, 0, 0, 0, 0, 0, 0, 0, 0, 0, 0, 0]) ∧
    scenario_cost "HV" (months_of 2024 1) [0, 0, 0, 0, 0, 0, 0, 0, 0, 0, 0, 0]
        ((0 : ℤ) : ℚ) ∈
      scenario_results "HV" (months_of 2024 1)
        [0, 0, 0, 0, 0, 0, 0, 0, 0, 0, 0, 0]
        (candidate_contracts (avg_calc [0, 0, 0, 0, 0, 0, 0, 0, 0, 0, 0, 0])) := by
  have h0 : avg_calc [0, 0, 0, 0, 0, 0, 0, 0, 0, 0, 0, 0] = 0 := by
    norm_num [avg_calc, pyRound, List.sum_cons, List.sum_nil]
  have hmem : (0 : ℤ) ∈ candidate_contracts
      (avg_calc [0, 0, 0, 0, 0, 0, 0, 0, 0, 0, 0, 0]) := by
    rw [h0, candidate_mem]
    omega
  refine ⟨h0, hmem, ?_⟩
  unfold scenario_results
  exact List.mem_map_of_mem _ hmem

/-! ## Best-scenario selection: C4 -/

/-- The contract capacity of an evaluated scenario is the candidate
itself. -/
theorem scenario_cost_contract (st : String) (months : List (ℤ × ℤ))
    (dems : List ℚ) (C : ℚ) : (scenario_cost st months dems C).contract_kw = C :=
  rfl

/-- Candidate order carries over to scenario order on capacities. -/
theorem scenario_results_pairwise (st : String) (months : List (ℤ × ℤ))
    (dems : List ℚ) (cands : List ℤ)
    (h : cands.Pairwise (fun a b => a < b)) :
    (scenario_results st months dems cands).Pairwise
      (fun a b => a.contract_kw < b.contract_kw) := by
  unfold scenario_results
  rw [List.pairwise_map]
  exact h.imp (fun hab => by
    rw [scenario_cost_contract, scenario_cost_contract]
    exact_mod_cast hab)

/-- Python's stable minimum over annual_total on a capacity-sorted
list: the fold result is a member, minimizes annual_total, and among
equal minima has the smallest capacity. -/
theorem py_min_spec (x : ScenarioResult) (xs : List ScenarioResult)
    (hp : (x :: xs).Pairwise (fun a b => a.contract_kw < b.contract_kw)) :
    xs.foldl (fun b a => if a.annual_total < b.annual_total then a else b) x ∈ x :: xs ∧
    (∀ s ∈ x :: xs,
      (xs.foldl (fun b a => if a.annual_total < b.annual_total then a else b)
        x).annual_total ≤ s.annual_total) ∧
    (∀ s ∈ x :: xs,
      s.annual_total =
        (xs.foldl (fun b a => if a.annual_total < b.annual_total then a else b)
          x).annual_total →
      (xs.foldl (fun b a => if a.annual_total < b.annual_total then a else b)
        x).contract_kw ≤ s.contract_kw) := by
  induction xs generalizing x with
  | nil =>
    refine ⟨List.mem_cons_self x [], ?_, ?_⟩
    · intro s hs
      rcases List.mem_cons.mp hs with rfl | hs'
      · exact le_refl _
      · simp at hs'
    · intro s hs _
      rcases List.mem_cons.mp hs with rfl | hs'
      · exact le_refl _
      · simp at hs'
  | cons y ys ih =>
    simp only [List.foldl_cons]
    rcases List.pairwise_cons.mp hp with ⟨hx, hp'⟩
    rcases List.pairwise_cons.mp hp' with ⟨hy, hys⟩
    by_cases hxy : y.annual_total < x.annual_total
    · simp only [if_pos hxy]
      obtain ⟨Hmem, Hmin, Htie⟩ := ih y hp'
      refine ⟨List.mem_cons_of_mem x Hmem, ?_, ?_⟩
      · intro s hs
        rcases List.mem_cons.mp hs with rfl | hs'
        · have h1 := Hmin y (List.mem_cons_self y ys)
          linarith
        · exact Hmin s hs'
      · intro s hs hse
        rcases List.mem_cons.mp hs with rfl | hs'
        · exfalso
          have h1 := Hmin y (List.mem_cons_self y ys)
          linarith
        · exact Htie s hs' hse
    · simp only [if_neg hxy]
      have hp'' : (x :: ys).Pairwise (fun a b => a.contract_kw < b.contract_kw) :=
        List.pairwise_cons.mpr ⟨fun b hb => hx b (List.mem_cons_of_mem y hb), hys⟩
      obtain ⟨Hmem, Hmin, Htie⟩ := ih x hp''
      have hxle : x.annual_total ≤ y.annual_total := not_lt.mp hxy
      refine ⟨?_, ?_, ?_⟩
      · rcases List.mem_cons.mp Hmem with h | h
        · rw [h]
          exact List.mem_cons_self x (y :: ys)
        · exact List.mem_cons_of_mem x (List.mem_cons_of_mem y h)
      · intro s hs
        rcases List.mem_cons.mp hs with rfl | hs'
        · exact Hmin s (List.mem_cons_self s ys)
        · rcases List.mem_cons.mp hs' with rfl | hs''
          · have h1 := Hmin x (List.mem_cons_self x ys)
            linarith
          · exact Hmin s (List.mem_cons_of_mem x hs'')
      · intro s hs hse
        rcases List.mem_cons.mp hs with rfl | hs'
        · exact Htie s (List.mem_cons_self s ys) hse
        · rcases List.mem_cons.mp hs' with rfl | hs''
          · have h1 := Hmin x (List.mem_cons_self x ys)
            have h2 : x.annual_total =
                (ys.foldl (fun b a => if a.annual_total < b.annual_total then a else b)
                  x).annual_total :=
              le_antisymm (by linarith) h1
            have h3 := Htie x (List.mem_cons_self x ys) h2
            have h4 := hx s (List.mem_cons_self s ys)
            linarith
          · exact Htie s (List.mem_cons_of_mem x hs'') hse

/-- C4: on a valid call the returned best row is one of the candidate
scenarios, its annual total is minimal among all candidate scenarios,
and among candidates sharing that minimal annual total it has the
smallest contracted capacity. -/
theorem run_simulation_best_min (cn st : String) (ckw : ℚ) (y m : ℤ)
    (dems : List ℚ) (h12 : dems.length = 12) (hnn : ∀ r ∈ dems, 0 ≤ r)
    (hst : st = "HV" ∨ st = "LV") :
    run_simulation cn st ckw y m dems = .ok (sim_output cn st ckw y m dems) ∧
    (sim_output cn st ckw y m dems).best_row ∈
      scenario_results st (months_of y m) dems
        (candidate_contracts (avg_calc dems)) ∧
    (∀ s ∈ scenario_results st (months_of y m) dems
        (candidate_contracts (avg_calc dems)),
      (sim_output cn st ckw y m dems).best_row.annual_total ≤ s.annual_total) ∧
    (∀ s ∈ scenario_results st (months_of y m) dems
        (candidate_contracts (avg_calc dems)),
      s.annual_total = (sim_output cn st ckw y m dems).best_row.annual_total →
        (sim_output cn st ckw y m dems).best_row.contract_kw ≤ s.contract_kw) := by
  have hpair := scenario_results_pairwise st (months_of y m) dems _
    (candidate_pairwise (avg_calc dems))
  have hmem0 : avg_calc dems ∈ candidate_contracts (avg_calc dems) :=
    (candidate_mem _ _).mpr (Or.inr (Or.inl rfl))
  obtain ⟨x, xs, hxxs⟩ : ∃ x xs,
      scenario_results st (months_of y m) dems
        (candidate_contracts (avg_calc dems)) = x :: xs := by
    have hm : scenario_cost st (months_of y m) dems ((avg_calc dems : ℤ) : ℚ) ∈
        scenario_results st (months_of y m) dems
          (candidate_contracts (avg_calc dems)) := by
      unfold scenario_results
      exact List.mem_map_of_mem _ hmem0
    cases hres : scenario_results st (months_of y m) dems
        (candidate_contracts (avg_calc dems)) with
    | nil =>
      rw [hres] at hm
      simp at hm
    | cons a l => exact ⟨a, l, rfl⟩
  have hb : (sim_output cn st ckw y m dems).best_row =
      xs.foldl (fun b a => if a.annual_total < b.annual_total then a else b) x := by
    show best_of (scenario_results st (months_of y m) dems
      (candidate_contracts (avg_calc dems))) = _
    rw [hxxs]
    rfl
  rw [hxxs] at hpair
  obtain ⟨Hmem, Hmin, Htie⟩ := py_min_spec x xs hpair
  refine ⟨run_simulation_ok cn st ckw y m dems h12 hst, ?_, ?_, ?_⟩
  · rw [hb, hxxs]
    exact Hmem
  · rw [hxxs]
    intro s hs
    rw [hb]
    exact Hmin s hs
  · rw [hxxs]
    intro s hs
    rw [hb]
    exact Htie s hs

/-- Witness for C4 on an all-zero reading list. -/
theorem run_simulation_best_min_witness :
    ([0, 0, 0, 0, 0, 0, 0, 0, 0, 0, 0, 0] : List ℚ).length = 12 ∧
    (∀ r ∈ ([0, 0, 0, 0, 0, 0, 0, 0, 0, 0, 0, 0] : List ℚ), 0 ≤ r) ∧
    ("HV" = "HV" ∨ "HV" = "LV") ∧
    (run_simulation "A" "HV" 100 2024 1 [0, 0, 0, 0, 0, 0, 0, 0, 0, 0, 0, 0] =
        .ok (sim_output "A" "HV" 100 2024 1 [0, 0, 0, 0, 0, 0, 0, 0, 0, 0, 0, 0]) ∧
      (sim_output "A" "HV" 100 2024 1
          [0, 0, 0, 0, 0, 0, 0, 0, 0, 0, 0, 0]).best_row ∈
        scenario_results "HV" (months_of 2024 1)
          [0, 0, 0, 0, 0, 0, 0, 0, 0, 0, 0, 0]
          (candidate_contracts (avg_calc [0, 0, 0, 0, 0, 0, 0, 0, 0, 0, 0, 0])) ∧
      (∀ s ∈ scenario_results "HV" (months_of 2024 1)
          [0, 0, 0, 0, 0, 0, 0, 0, 0, 0, 0, 0]
          (candidate_contracts (avg_calc [0, 0, 0, 0, 0, 0, 0, 0, 0, 0, 0, 0])),
        (sim_output "A" "HV" 100 2024 1
            [0, 0, 0, 0, 0, 0, 0, 0, 0, 0, 0, 0]).best_row.annual_total ≤
          s.annual_total) ∧
      (∀ s ∈ scenario_results "HV" (months_of 2024 1)
          [0, 0, 0, 0, 0, 0, 0, 0, 0, 0, 0, 0]
          (candidate_contracts (avg_calc [0, 0, 0, 0, 0, 0, 0, 0, 0, 0, 0, 0])),
        s.annual_total = (sim_output "A" "HV" 100 2024 1
            [0, 0, 0, 0, 0, 0, 0, 0, 0, 0, 0, 0]).best_row.annual_total →
          (sim_output "A" "HV" 100 2024 1
              [0, 0, 0, 0, 0, 0, 0, 0, 0, 0, 0, 0]).best_row.contract_kw ≤
            s.contract_kw)) :=
  ⟨rfl, by intro r hr; fin_cases hr <;> norm_num, Or.inl rfl,
    run_simulation_best_min "A" "HV" 100 2024 1 _ rfl
      (by intro r hr; fin_cases hr <;> norm_num) (Or.inl rfl)⟩

/-! ## Scan window: C5 -/

/-- Specification of best_of on a non-empty capacity-sorted list. -/
theorem best_of_spec (results : List ScenarioResult)
    (hp : results.Pairwise (fun a b => a.contract_kw < b.contract_kw))
    (hne : results ≠ []) :
    best_of results ∈ results ∧
    (∀ s ∈ results, (best_of results).annual_total ≤ s.annual_total) ∧
    (∀ s ∈ results, s.annual_total = (best_of results).annual_total →
      (best_of results).contract_kw ≤ s.contract_kw) := by
  cases results with
  | nil => exact absurd rfl hne
  | cons x xs =>
    have hb : best_of (x :: xs) =
        xs.foldl (fun b a => if a.annual_total < b.annual_total then a else b) x := rfl
    rw [hb]
    exact py_min_spec x xs hp

/-- An element of a strictly increasing list is found by indexOf at its
own position. -/
theorem indexOf_getElem_pairwise (l : List ℚ)
    (hl : l.Pairwise (fun a b => a < b)) (i : ℕ) (hi : i < l.length) :
    l.indexOf l[i] = i := by
  induction l generalizing i with
  | nil => simp at hi
  | cons a t ih =>
    rcases List.pairwise_cons.mp hl with ⟨ha, ht⟩
    cases i with
    | zero => simp
    | succ n =>
      have hn : n < t.length := by simpa using hi
      rw [List.getElem_cons_succ]
      have hne : a ≠ t[n] := ne_of_lt (ha _ (List.getElem_mem hn))
      rw [List.indexOf_cons]
      have hbeq : (a == t[n]) = false := by
        rw [Bool.eq_false_iff]
        intro hcontra
        exact hne (beq_iff_eq.mp hcontra)
      rw [hbeq]
      simp only [cond_false]
      rw [ih ht n hn]

/-- Filtering a capacity-sorted concatenation by membership of the
capacity in the middle block keeps exactly the middle block. -/
theorem filter_middle (T M R : List ScenarioResult)
    (hp : (T ++ (M ++ R)).Pairwise (fun a b => a.contract_kw < b.contract_kw)) :
    (T ++ (M ++ R)).filter
      (fun s => decide (s.contract_kw ∈ M.map (fun s => s.contract_kw))) = M := by
  rcases List.pairwise_append.mp hp with ⟨hT, hMR, hTMR⟩
  rcases List.pairwise_append.mp hMR with ⟨hM, hR, hMRc⟩
  rw [List.filter_append, List.filter_append]
  have h1 : T.filter
      (fun s => decide (s.contract_kw ∈ M.map (fun s => s.contract_kw))) = [] := by
    rw [List.filter_eq_nil_iff]
    intro s hs hmem
    simp only [decide_eq_true_eq, List.mem_map] at hmem
    obtain ⟨t, ht, hcap⟩ := hmem
    have hlt := hTMR s hs t (List.mem_append_left R ht)
    rw [hcap] at hlt
    exact lt_irrefl _ hlt
  have h2 : M.filter
      (fun s => decide (s.contract_kw ∈ M.map (fun s => s.contract_kw))) = M := by
    rw [List.filter_eq_self]
    intro s hs
    simp only [decide_eq_true_eq]
    exact List.mem_map_of_mem _ hs
  have h3 : R.filter
      (fun s => decide (s.contract_kw ∈ M.map (fun s => s.contract_kw))) = [] := by
    rw [List.filter_eq_nil_iff]
    intro s hs hmem
    simp only [decide_eq_true_eq, List.mem_map] at hmem
    obtain ⟨t, ht, hcap⟩ := hmem
    have hlt := hMRc t ht s hs
    rw [hcap] at hlt
    exact lt_irrefl _ hlt
  rw [h1, h2, h3, List.nil_append, List.append_nil]

/-- Filtering by membership of the capacity in a slice of the capacity
list keeps exactly the corresponding slice of the scenario list. -/
theorem filter_slice (results : List ScenarioResult)
    (hp : results.Pairwise (fun a b => a.contract_kw < b.contract_kw)) (a n : ℕ) :
    results.filter (fun s => decide (s.contract_kw ∈
      ((results.drop a).take n).map (fun s => s.contract_kw))) =
    (results.drop a).take n := by
  obtain ⟨M, hM⟩ : ∃ M, (results.drop a).take n = M := ⟨_, rfl⟩
  rw [hM]
  have hsplit : results.take a ++ (M ++ (results.drop a).drop n) = results := by
    rw [← hM, List.take_append_drop, List.take_append_drop]
  rw [← hsplit]
  exact filter_middle _ _ _ (by rw [hsplit]; exact hp)

/-- An element sitting at a rank inside the window belongs to the
take-drop slice. -/
theorem mem_take_drop_of_index (l : List ScenarioResult) (a n i : ℕ)
    (hi : i < l.length) (h1 : a ≤ i) (h2 : i < a + n) :
    l[i] ∈ (l.drop a).take n := by
  apply List.mem_iff_getElem.mpr
  refine ⟨i - a, by rw [List.length_take, List.length_drop]; omega, ?_⟩
  rw [List.getElem_take, List.getElem_drop]
  congr 1
  omega

/-- The display window of scan_table_of on a capacity-sorted scenario
list is the rank slice six on each side of the best rank, clamped. -/
theorem scan_table_spec (results : List ScenarioResult)
    (hp : results.Pairwise (fun a b => a.contract_kw < b.contract_kw))
    (k : ℕ) (hk : k < results.length) :
    scan_table_of results results[k].contract_kw =
      (results.drop (k - 6)).take
        (min (results.length - 1) (k + 6) + 1 - (k - 6)) := by
  simp only [scan_table_of]
  have hcp : (results.map (fun s => s.contract_kw)).Pairwise (fun a b => a < b) := by
    rw [List.pairwise_map]
    exact hp
  have hsorted : (results.map (fun s => s.contract_kw)).mergeSort
      (fun a b => decide (a ≤ b)) = results.map (fun s => s.contract_kw) :=
    List.mergeSort_of_sorted (hcp.imp (fun h => decide_eq_true (le_of_lt h)))
  rw [hsorted]
  have hmk : k < (results.map (fun s => s.contract_kw)).length := by
    rw [List.length_map]
    exact hk
  have hidx : (results.map (fun s => s.contract_kw)).indexOf
      results[k].contract_kw = k := by
    have h1 := indexOf_getElem_pairwise _ hcp k hmk
    rw [List.getElem_map] at h1
    exact h1
  rw [hidx, List.length_map]
  have hdisp : ((results.map (fun s => s.contract_kw)).drop (k - 6)).take
      (min (results.length - 1) (k + 6) + 1 - (k - 6)) =
      ((results.drop (k - 6)).take
        (min (results.length - 1) (k + 6) + 1 - (k - 6))).map
          (fun s => s.contract_kw) := by
    rw [List.map_take, List.map_drop]
  simp only [hdisp]
  rw [filter_slice results hp (k - 6)
    (min (results.length - 1) (k + 6) + 1 - (k - 6))]
  have hslice : ((results.drop (k - 6)).take
      (min (results.length - 1) (k + 6) + 1 - (k - 6))).Pairwise
        (fun a b => a.contract_kw < b.contract_kw) :=
    List.Pairwise.sublist
      ((List.take_sublist _ _).trans (List.drop_sublist _ _)) hp
  exact List.mergeSort_of_sorted (hslice.imp (fun h => decide_eq_true (le_of_lt h)))

/-- C5: on a valid call the returned scenarios window is exactly the
slice of the ascending candidate scenarios whose rank lies within six
of the best row's rank, clamped to the candidate range; it has at most
13 entries, contains the best row, and is strictly ascending in
capacity. -/
theorem run_simulation_scan_window (cn st : String) (ckw : ℚ) (y m : ℤ)
    (dems : List ℚ) (h12 : dems.length = 12) (hnn : ∀ r ∈ dems, 0 ≤ r)
    (hst : st = "HV" ∨ st = "LV") :
    run_simulation cn st ckw y m dems = .ok (sim_output cn st ckw y m dems) ∧
    ∃ k : ℕ, ∃ hk : k < (scenario_results st (months_of y m) dems
        (candidate_contracts (avg_calc dems))).length,
      (scenario_results st (months_of y m) dems
          (candidate_contracts (avg_calc dems))).get ⟨k, hk⟩ =
        (sim_output cn st ckw y m dems).best_row ∧
      (sim_output cn st ckw y m dems).scan_table =
        ((scenario_results st (months_of y m) dems
            (candidate_contracts (avg_calc dems))).drop (k - 6)).take
          (min ((scenario_results st (months_of y m) dems
              (candidate_contracts (avg_calc dems))).length - 1) (k + 6) + 1 -
            (k - 6)) ∧
      (sim_output cn st ckw y m dems).scan_table.length ≤ 13 ∧
      (sim_output cn st ckw y m dems).best_row ∈
        (sim_output cn st ckw y m dems).scan_table ∧
      (sim_output cn st ckw y m dems).scan_table.Pairwise
        (fun a b => a.contract_kw < b.contract_kw) := by
  have hpair := scenario_results_pairwise st (months_of y m) dems _
    (candidate_pairwise (avg_calc dems))
  have hm0 : scenario_cost st (months_of y m) dems ((avg_calc dems : ℤ) : ℚ) ∈
      scenario_results st (months_of y m) dems
        (candidate_contracts (avg_calc dems)) := by
    unfold scenario_results
    exact List.mem_map_of_mem _ ((candidate_mem _ _).mpr (Or.inr (Or.inl rfl)))
  have hne := List.ne_nil_of_mem hm0
  obtain ⟨hbmem, hbmin, hbtie⟩ := best_of_spec _ hpair hne
  have hbr : (sim_output cn st ckw y m dems).best_row =
      best_of (scenario_results st (months_of y m) dems
        (candidate_contracts (avg_calc dems))) := rfl
  obtain ⟨k, hk, hkeq⟩ := List.mem_iff_getElem.mp hbmem
  have hcapeq : (best_of (scenario_results st (months_of y m) dems
      (candidate_contracts (avg_calc dems)))).contract_kw =
      (scenario_results st (months_of y m) dems
        (candidate_contracts (avg_calc dems)))[k].contract_kw := by
    rw [hkeq]
  have hscanslice : (sim_output cn st ckw y m dems).scan_table =
      ((scenario_results st (months_of y m) dems
          (candidate_contracts (avg_calc dems))).drop (k - 6)).take
        (min ((scenario_results st (months_of y m) dems
            (candidate_contracts (avg_calc dems))).length - 1) (k + 6) + 1 -
          (k - 6)) := by
    show scan_table_of (scenario_results st (months_of y m) dems
        (candidate_contracts (avg_calc dems)))
      (best_of (scenario_results st (months_of y m) dems
        (candidate_contracts (avg_calc dems)))).contract_kw = _
    rw [hcapeq]
    exact scan_table_spec _ hpair k hk
  refine ⟨run_simulation_ok cn st ckw y m dems h12 hst, k, hk, ?_, hscanslice,
    ?_, ?_, ?_⟩
  · rw [List.get_eq_getElem, hbr]
    exact hkeq
  · rw [hscanslice, List.length_take]
    exact le_trans (Nat.min_le_left _ _) (by omega)
  · rw [hscanslice, hbr, ← hkeq]
    exact mem_take_drop_of_index _ _ _ _ hk (by omega) (by omega)
  · rw [hscanslice]
    exact List.Pairwise.sublist
      ((List.take_sublist _ _).trans (List.drop_sublist _ _)) hpair

/-- Witness for C5 on an all-zero reading list. -/
theorem run_simulation_scan_window_witness :
    ([0, 0, 0, 0, 0, 0, 0, 0, 0, 0, 0, 0] : List ℚ).length = 12 ∧
    (∀ r ∈ ([0, 0, 0, 0, 0, 0, 0, 0, 0, 0, 0, 0] : List ℚ), 0 ≤ r) ∧
    ("HV" = "HV" ∨ "HV" = "LV") ∧
    (run_simulation "A" "HV" 100 2024 1 [0, 0, 0, 0, 0, 0, 0, 0, 0, 0, 0, 0] =
        .ok (sim_output "A" "HV" 100 2024 1 [0, 0, 0, 0, 0, 0, 0, 0, 0, 0, 0, 0]) ∧
      ∃ k : ℕ, ∃ hk : k < (scenario_results "HV" (months_of 2024 1)
          [0, 0, 0, 0, 0, 0, 0, 0, 0, 0, 0, 0]
          (candidate_contracts
            (avg_calc [0, 0, 0, 0, 0, 0, 0, 0, 0, 0, 0, 0]))).length,
        (scenario_results "HV" (months_of 2024 1)
            [0, 0, 0, 0, 0, 0, 0, 0, 0, 0, 0, 0]
            (candidate_contracts
              (avg_calc [0, 0, 0, 0, 0, 0, 0, 0, 0, 0, 0, 0]))).get ⟨k, hk⟩ =
          (sim_output "A" "HV" 100 2024 1
            [0, 0, 0, 0, 0, 0, 0, 0, 0, 0, 0, 0]).best_row ∧
        (sim_output "A" "HV" 100 2024 1
            [0, 0, 0, 0, 0, 0, 0, 0, 0, 0, 0, 0]).scan_table =
          ((scenario_results "HV" (months_of 2024 1)
              [0, 0, 0, 0, 0, 0, 0, 0, 0, 0, 0, 0]
              (candidate_contracts
                (avg_calc [0, 0, 0, 0, 0, 0, 0, 0, 0, 0, 0, 0]))).drop
            (k - 6)).take
            (min ((scenario_results "HV" (months_of 2024 1)
                [0, 0, 0, 0, 0, 0, 0, 0, 0, 0, 0, 0]
                (candidate_contracts
                  (avg_calc [0, 0, 0, 0, 0, 0, 0, 0, 0, 0, 0, 0]))).length - 1)
              (k + 6) + 1 - (k - 6)) ∧
        (sim_output "A" "HV" 100 2024 1
            [0, 0, 0, 0, 0, 0, 0, 0, 0, 0, 0, 0]).scan_table.length ≤ 13 ∧
        (sim_output "A" "HV" 100 2024 1
            [0, 0, 0, 0, 0, 0, 0, 0, 0, 0, 0, 0]).best_row ∈
          (sim_output "A" "HV" 100 2024 1
            [0, 0, 0, 0, 0, 0, 0, 0, 0, 0, 0, 0]).scan_table ∧
        (sim_output "A" "HV" 100 2024 1
            [0, 0, 0, 0, 0, 0, 0, 0, 0, 0, 0, 0]).scan_table.Pairwise
          (fun a b => a.contract_kw < b.contract_kw)) :=
  ⟨rfl, by intro r hr; fin_cases hr <;> norm_num, Or.inl rfl,
    run_simulation_scan_window "A" "HV" 100 2024 1 _ rfl
      (by intro r hr; fin_cases hr <;> norm_num) (Or.inl rfl)⟩
